import Mathlib

/-!
Verification of the environment-compatibility core of pixi:
the virtual-package synthesizer (`get_minimal_virtual_packages`),
the compatibility verifier
(`verify_current_platform_has_required_virtual_packages`), and the
solve-group aggregation model (`SolveGroup`), shallowly embedded from
`src/workspace/virtual_packages.rs` and `src/workspace/solve_group.rs`.
External collaborators (rattler platform/virtual-package types, the host
detection oracle) are embedded following their observable behaviour; parts
of the pixi workspace that live in sibling crates (`pixi_manifest`,
`pixi_default_versions`) are modelled from the specification and marked as
such in their doc comments.
-/

namespace Pixi

/-- A version is modelled as its list of dot-separated numeric components
(e.g. `12.0` is `[12, 0]`). -/
abbrev Version := List Nat

/-- Strict lexicographic order on versions (a strict prefix is smaller). -/
def vlt : Version → Version → Bool
  | [], [] => false
  | [], _ :: _ => true
  | _ :: _, [] => false
  | a :: as, b :: bs => if a < b then true else if b < a then false else vlt as bs

/-- The larger of two versions (`Ord::max`; returns the right one on ties of
distinct representations, which do not occur in this list model). -/
def vmax (a b : Version) : Version := if vlt a b then b else a

/-- The `rattler_conda_types::Platform` enumeration, restricted to a
representative set of OS/architecture combinations (all those exercised by
the repository's snapshot test, plus the remaining Windows variants). -/
inductive Platform where
  | noArch
  | linux32
  | linux64
  | linuxAarch64
  | linuxPpc64le
  | osx64
  | osxArm64
  | win32
  | win64
  | winArm64
deriving DecidableEq

/-- `Platform::is_linux`. -/
def Platform.is_linux : Platform → Bool
  | .linux32 | .linux64 | .linuxAarch64 | .linuxPpc64le => true
  | _ => false

/-- `Platform::is_osx`. -/
def Platform.is_osx : Platform → Bool
  | .osx64 | .osxArm64 => true
  | _ => false

/-- `Platform::is_windows`. -/
def Platform.is_windows : Platform → Bool
  | .win32 | .win64 | .winArm64 => true
  | _ => false

/-- `Platform::is_unix`: Linux or macOS in this model. -/
def Platform.is_unix (p : Platform) : Bool := p.is_linux || p.is_osx

/-- Modelled from the spec: `pixi_default_versions::default_linux_version`
(Default-Version Provider crate, not under `src/`): the minimum assumed
Linux kernel version. -/
def default_linux_version : Version := [4, 18]

/-- Modelled from the spec: `pixi_default_versions::default_glibc_version`
(Default-Version Provider crate, not under `src/`): the minimum assumed
glibc version. -/
def default_glibc_version : Version := [2, 17]

/-- Modelled from the spec: `pixi_default_versions::default_mac_os_version`
(Default-Version Provider crate, not under `src/`): the minimum assumed
macOS version, aware of the concrete macOS platform variant. -/
def default_mac_os_version : Platform → Version
  | .osxArm64 => [11, 0]
  | _ => [10, 15]

/-- Modelled from the spec: `pixi_default_versions::default_windows_version`
(Default-Version Provider crate, not under `src/`): the minimum assumed
Windows version. -/
def default_windows_version : Version := [10, 0]

/-- Modelled from the spec: `pixi_manifest::LibCSystemRequirement`
(manifest crate, not under `src/`): a libc family name (defaulting to
"glibc" when unspecified) together with a minimum version. -/
structure LibCSystemRequirement where
  family : Option String
  version : Version
deriving DecidableEq

/-- `LibCSystemRequirement::family_and_version`: the declared family (or
"glibc") paired with the declared version. -/
def LibCSystemRequirement.family_and_version (r : LibCSystemRequirement) :
    String × Version :=
  (r.family.getD "glibc", r.version)

/-- Modelled from the spec: `pixi_manifest::SystemRequirements` (manifest
crate, not under `src/`): the record of optional minimum host requirements.
Absence of a field means "unconstrained, use default". -/
structure SystemRequirements where
  linux : Option Version := none
  cuda : Option Version := none
  macos : Option Version := none
  libc : Option LibCSystemRequirement := none
  windows : Option Version := none
deriving DecidableEq

/-- The `rattler_virtual_packages::VirtualPackage` tagged union of
capability kinds, with each variant's payload flattened into the
constructor. `win`'s version is optional as in
`rattler_virtual_packages::Windows`. -/
inductive VirtualPackage where
  | unix
  | linux (version : Version)
  | libC (family : String) (version : Version)
  | win (version : Option Version)
  | osx (version : Version)
  | cuda (version : Version)
  | archspec (spec : String)
deriving DecidableEq

/-- `rattler_virtual_packages::Archspec::from_platform`: the optional
per-platform CPU architecture signature (absent for `noarch`). -/
def archspec_from_platform : Platform → Option String
  | .noArch => none
  | .linux32 => some "x86"
  | .linux64 => some "x86_64"
  | .linuxAarch64 => some "aarch64"
  | .linuxPpc64le => some "ppc64le"
  | .osx64 => some "x86_64"
  | .osxArm64 => some "m1"
  | .win32 => some "x86"
  | .win64 => some "x86_64"
  | .winArm64 => some "arm64"

/-- Embedding of `get_minimal_virtual_packages` from
`src/workspace/virtual_packages.rs` (lines 24-79): builds the minimal
virtual-package list by sequentially pushing entries in source order. -/
def get_minimal_virtual_packages (platform : Platform)
    (system_requirements : SystemRequirements) : List VirtualPackage :=
  let vps : List VirtualPackage := []
  let vps := if platform.is_unix then vps ++ [.unix] else vps
  let vps :=
    if platform.is_linux then
      let version := system_requirements.linux.getD default_linux_version
      let fv := (system_requirements.libc.map
          LibCSystemRequirement.family_and_version).getD
        ("glibc", default_glibc_version)
      vps ++ [.linux version, .libC fv.1 fv.2]
    else vps
  let vps :=
    if platform.is_windows then vps ++ [.win (some default_windows_version)]
    else vps
  let vps :=
    if platform.is_osx then
      vps ++ [.osx (system_requirements.macos.getD
        (default_mac_os_version platform))]
    else vps
  let vps :=
    match system_requirements.cuda with
    | some version => vps ++ [.cuda version]
    | none => vps
  match archspec_from_platform platform with
  | some spec => vps ++ [.archspec spec]
  | none => vps

/-- The spec's six-step reference construction of the synthesizer output
(spec section 4.3), written as the concatenation of the six steps in the
required order. -/
def synthesizeSpec (platform : Platform)
    (requirements : SystemRequirements) : List VirtualPackage :=
  (if platform.is_unix then [VirtualPackage.unix] else [])
  ++ (if platform.is_linux then
        [VirtualPackage.linux (requirements.linux.getD default_linux_version),
          VirtualPackage.libC
            ((requirements.libc.map
                LibCSystemRequirement.family_and_version).getD
              ("glibc", default_glibc_version)).1
            ((requirements.libc.map
                LibCSystemRequirement.family_and_version).getD
              ("glibc", default_glibc_version)).2]
      else [])
  ++ (if platform.is_windows then
        [VirtualPackage.win (some default_windows_version)]
      else [])
  ++ (if platform.is_osx then
        [VirtualPackage.osx (requirements.macos.getD
          (default_mac_os_version platform))]
      else [])
  ++ (match requirements.cuda with
      | some version => [VirtualPackage.cuda version]
      | none => [])
  ++ (match archspec_from_platform platform with
      | some spec => [VirtualPackage.archspec spec]
      | none => [])

/-- C1: for every platform and every `SystemRequirements` value, the
synthesizer returns exactly the list built by the spec's six-step reference
construction, in that order. -/
theorem get_minimal_virtual_packages_eq_six_step_reference :
    ∀ (platform : Platform) (requirements : SystemRequirements),
      get_minimal_virtual_packages platform requirements =
        synthesizeSpec platform requirements := by
  intro p r
  obtain ⟨lin, cu, mac, lib, win⟩ := r
  cases p <;> cases cu <;>
    simp [get_minimal_virtual_packages, synthesizeSpec, Platform.is_unix,
      Platform.is_linux, Platform.is_osx, Platform.is_windows,
      archspec_from_platform]

/-- `rattler_conda_types::GenericVirtualPackage`: the flattened, name-keyed
projection of a virtual package used for comparison against host
capabilities. -/
structure GenericVirtualPackage where
  name : String
  version : Version
  build_string : String
deriving DecidableEq

/-- ASCII lowercasing of a string (`str::to_lowercase` on the family
names in play), written by structural recursion over the character
data. -/
def toLowerStr (s : String) : String := ⟨s.data.map Char.toLower⟩

/-- The `From<VirtualPackage> for GenericVirtualPackage` projection of
rattler: each capability kind maps to its dunder name; libc uses its
lowercased family as the name; archspec carries its signature as the build
string. -/
def genericFromVirtual : VirtualPackage → GenericVirtualPackage
  | .unix => ⟨"__unix", [0], "0"⟩
  | .linux version => ⟨"__linux", version, "0"⟩
  | .libC family version => ⟨"__" ++ toLowerStr family, version, "0"⟩
  | .win version => ⟨"__win", version.getD [0], "0"⟩
  | .osx version => ⟨"__osx", version, "0"⟩
  | .cuda version => ⟨"__cuda", version, "0"⟩
  | .archspec spec => ⟨"__archspec", [1], spec⟩

/-- The opaque payload of a detection failure (the oracle's error). -/
abbrev DetectVirtualPackageError := String

/-- `VerifyCurrentPlatformError` from
`src/workspace/virtual_packages.rs` (lines 95-122). -/
inductive VerifyCurrentPlatformError where
  | unsupportedPlatform (environments_platforms : List Platform)
      (platform : Platform) (environment : String)
  | detectionVirtualPackagesError (e : DetectVirtualPackageError)
  | mismatchingBuildString (required : String)
      (required_build_string : String) (local_build_string : String)
  | mismatchingVersion (required : String) (required_version : Version)
      (local_version : Version)
  | missingVirtualPackage (required : String) (required_version : Version)
      (required_build_string : String)
deriving DecidableEq

/-- The name-keyed host capability map built by the verifier
(`collect::<HashMap<_, _>>()` over `(name, pkg)` pairs: on duplicate names
the last-seen entry wins). -/
def buildHostMap (pkgs : List GenericVirtualPackage) :
    String → Option GenericVirtualPackage :=
  fun n => pkgs.reverse.find? (fun p => p.name = n)

/-- The verifier's comparison loop over the required capabilities, in
synthesizer order (`for req_pkg in required_pkgs` in
`src/workspace/virtual_packages.rs`, lines 153-186): `none` means every
required capability passed. -/
def verifyLoop (host : String → Option GenericVirtualPackage) :
    List GenericVirtualPackage → Option VerifyCurrentPlatformError
  | [] => none
  | req :: rest =>
    if req.name = "__archspec" then verifyLoop host rest
    else
      match host req.name with
      | none =>
        some (.missingVirtualPackage req.name req.version req.build_string)
      | some l =>
        if req.build_string ≠ l.build_string then
          some (.mismatchingBuildString req.name req.build_string
            l.build_string)
        else if vlt l.version req.version then
          some (.mismatchingVersion req.name req.version l.version)
        else verifyLoop host rest

/-- The outcome the claim prescribes for a single required non-archspec
capability compared against the host map: `none` when it passes, otherwise
the exact error the verifier must return for it. -/
def capFailure (host : String → Option GenericVirtualPackage)
    (req : GenericVirtualPackage) : Option VerifyCurrentPlatformError :=
  match host req.name with
  | none => some (.missingVirtualPackage req.name req.version req.build_string)
  | some l =>
    if req.build_string ≠ l.build_string then
      some (.mismatchingBuildString req.name req.build_string l.build_string)
    else if vlt l.version req.version then
      some (.mismatchingVersion req.name req.version l.version)
    else none

/-- A required capability passes against the host: its name resolves to a
host capability whose build string matches and whose version is at least
the required one. -/
def capPasses (host : String → Option GenericVirtualPackage)
    (req : GenericVirtualPackage) : Prop :=
  ∃ l, host req.name = some l ∧ l.build_string = req.build_string ∧
    vlt l.version req.version = false

/-- C2: the comparison loop returns the error of the first failing
non-archspec required capability — absent name yields
`missingVirtualPackage`, then a differing build string yields
`mismatchingBuildString`, then a required version strictly above the host
version yields `mismatchingVersion` — and succeeds exactly when every
non-archspec required capability passes. -/
theorem verifyLoop_first_failure :
    ∀ (host : String → Option GenericVirtualPackage)
      (reqs : List GenericVirtualPackage),
      verifyLoop host reqs =
        (reqs.filter (fun r => r.name ≠ "__archspec")).findSome?
          (capFailure host)
      ∧ (verifyLoop host reqs = none ↔
          ∀ req ∈ reqs, req.name ≠ "__archspec" → capPasses host req) := by
  intro host reqs
  induction reqs with
  | nil => simp [verifyLoop, capPasses]
  | cons req rest ih =>
    by_cases harch : req.name = "__archspec"
    · constructor
      · simpa [verifyLoop, harch] using ih.1
      · rw [List.forall_mem_cons]
        simp only [verifyLoop, harch, if_true, if_pos rfl]
        rw [ih.2]
        simp [harch]
    · cases hh : host req.name with
      | none =>
        constructor
        · simp [verifyLoop, harch, hh, capFailure]
        · simp only [verifyLoop, harch, if_false, hh]
          rw [List.forall_mem_cons]
          constructor
          · intro h
            cases h
          · intro h
            rcases h.1 harch with ⟨l, hl, _⟩
            rw [hh] at hl
            cases hl
      | some l =>
        by_cases hb : req.build_string = l.build_string
        · by_cases hv : vlt l.version req.version
          · constructor
            · simp [verifyLoop, harch, hh, capFailure, hb, hv]
            · simp only [verifyLoop, harch, if_false, hh, hb, hv]
              rw [List.forall_mem_cons]
              constructor
              · intro h
                simp at h
              · intro h
                rcases h.1 harch with ⟨l2, hl2, _, hv2⟩
                rw [hh] at hl2
                cases hl2
                rw [hv] at hv2
                cases hv2
          · constructor
            · simpa [verifyLoop, harch, hh, capFailure, hb, hv] using ih.1
            · simp only [verifyLoop, hh]
              rw [if_neg harch, if_neg (fun hc => hc hb),
                if_neg (by simpa using hv), List.forall_mem_cons, ih.2]
              constructor
              · intro h
                refine ⟨fun _ => ⟨l, hh, hb.symm, by simpa using hv⟩, h⟩
              · intro h
                exact h.2
        · constructor
          · simp [verifyLoop, harch, hh, capFailure, hb]
          · simp only [verifyLoop, harch, if_false, hh]
            rw [if_pos (by simpa using hb)]
            rw [List.forall_mem_cons]
            constructor
            · intro h
              cases h
            · intro h
              rcases h.1 harch with ⟨l2, hl2, hb2, _⟩
              rw [hh] at hl2
              cases hl2
              exact absurd hb2.symm hb

/-- C6: archspec-named required capabilities are skipped entirely — the
comparison loop's result on any required list equals its result on the same
list with every archspec-named entry removed, so such an entry can never
cause a verification failure. -/
theorem verifyLoop_skips_archspec :
    ∀ (host : String → Option GenericVirtualPackage)
      (reqs : List GenericVirtualPackage),
      verifyLoop host reqs =
        verifyLoop host (reqs.filter (fun r => r.name ≠ "__archspec")) := by
  intro host reqs
  induction reqs with
  | nil => rfl
  | cons req rest ih =>
    by_cases harch : req.name = "__archspec"
    · simpa [verifyLoop, harch] using ih
    · cases hh : host req.name with
      | none => simp [verifyLoop, harch, hh]
      | some l =>
        by_cases hb : req.build_string = l.build_string
        · by_cases hv : vlt l.version req.version
          · simp [verifyLoop, harch, hh, hb, hv]
          · simpa [verifyLoop, harch, hh, hb, hv] using ih
        · simp [verifyLoop, harch, hh, hb]

/-- A manifest-declared feature: a name (the feature's identity) together
with its optional system-requirement overrides. -/
structure Feature where
  name : String
  system_requirements : SystemRequirements
deriving DecidableEq

/-- A manifest environment record: its name, the names of its constituent
features in declaration order, its declared supported platforms, and its
optional solve-group membership (an index into the workspace's solve-group
table). -/
structure EnvironmentRecord where
  name : String
  features : List String
  platforms : List Platform
  solve_group : Option Nat
deriving DecidableEq

/-- A manifest solve-group record (`pixi_manifest::SolveGroup`): its name
and the indices of its member environments, in declaration order. -/
structure SolveGroupRecord where
  name : String
  environments : List Nat
deriving DecidableEq

/-- The loaded workspace manifest: indexed collections of features,
environments and solve groups. -/
structure Workspace where
  features : List Feature
  environments : List EnvironmentRecord
  solve_groups : List SolveGroupRecord
deriving DecidableEq

/-- An environment view: a workspace together with one of its environment
records (the borrow of `Environment<'p>`). -/
structure Environment where
  workspace : Workspace
  environment : EnvironmentRecord
deriving DecidableEq

/-- A solve-group view: a workspace together with one of its solve-group
records (the borrow of `SolveGroup<'p>` from
`src/workspace/solve_group.rs`). -/
structure SolveGroup where
  workspace : Workspace
  solve_group : SolveGroupRecord
deriving DecidableEq

/-- Resolve a feature by name in the workspace (feature identity is its
name, unique within a workspace). -/
def Workspace.lookupFeature (w : Workspace) (n : String) : Option Feature :=
  w.features.find? (fun f => f.name = n)

/-- The features of an environment, in the environment's own declaration
order, resolved by name against the workspace. -/
def Environment.features (e : Environment) : List Feature :=
  e.environment.features.filterMap e.workspace.lookupFeature

/-- The larger of two optional versions: absent fields are ignored, two
present fields combine with `vmax`. -/
def mergeOptVersion : Option Version → Option Version → Option Version
  | none, b => b
  | some a, none => some a
  | some a, some b => some (vmax a b)

/-- Modelled from the spec: the libc half of
`pixi_manifest::SystemRequirements::union` (manifest crate, not under
`src/`): "the highest is chosen" — the requirement with the larger version
wins (the left one on ties). -/
def mergeLibC :
    Option LibCSystemRequirement → Option LibCSystemRequirement →
      Option LibCSystemRequirement
  | none, b => b
  | some a, none => some a
  | some a, some b => some (if vlt a.version b.version then b else a)

/-- Modelled from the spec: `pixi_manifest::SystemRequirements::union`
(manifest crate, not under `src/`): field-wise combination taking the
maximum present value for the version-like fields; `windows` is never
populated from manifest input and stays unset after a merge. -/
def SystemRequirements.union (a b : SystemRequirements) :
    SystemRequirements where
  linux := mergeOptVersion a.linux b.linux
  cuda := mergeOptVersion a.cuda b.cuda
  macos := mergeOptVersion a.macos b.macos
  libc := mergeLibC a.libc b.libc
  windows := none

/-- The Requirement Merger: the field-wise combination of an ordered
collection of `SystemRequirements` values. -/
def mergeAll (l : List SystemRequirements) : SystemRequirements :=
  l.foldl SystemRequirements.union {}

/-- Modelled from the spec: `FeaturesExt::local_system_requirements` for an
environment (manifest crate, not under `src/`): the per-field combination
of the constituent features' requirements. -/
def Environment.local_system_requirements (e : Environment) :
    SystemRequirements :=
  mergeAll (e.features.map Feature.system_requirements)

/-- `SolveGroup::environments` from `src/workspace/solve_group.rs` (lines
52-60): the member environments, resolved through the workspace manifest
in declaration order. -/
def SolveGroup.environments (g : SolveGroup) : List Environment :=
  g.solve_group.environments.filterMap fun i =>
    (g.workspace.environments[i]?).map fun er => ⟨g.workspace, er⟩

/-- `SolveGroup::system_requirements` from `src/workspace/solve_group.rs`
(lines 60-68) delegates to `local_system_requirements`; that body is
modelled from the spec (`FeaturesExt`, manifest crate, not under `src/`):
the Requirement Merger applied to the member environments' effective
requirements. -/
def SolveGroup.system_requirements (g : SolveGroup) : SystemRequirements :=
  mergeAll (g.environments.map Environment.local_system_requirements)

/-- Modelled from the spec: `Environment::system_requirements`
(`environment.rs`, not under `src/`): an environment that belongs to a
solve group shares the group's merged system requirements, otherwise it
uses its own feature-derived requirements. -/
def Environment.system_requirements (e : Environment) : SystemRequirements :=
  match e.environment.solve_group with
  | some i =>
    match e.workspace.solve_groups[i]? with
    | some gr => SolveGroup.system_requirements ⟨e.workspace, gr⟩
    | none => e.local_system_requirements
  | none => e.local_system_requirements

/-- `Environment::virtual_packages` from
`src/workspace/virtual_packages.rs` (lines 82-89). -/
def Environment.virtual_packages (e : Environment) (platform : Platform) :
    List VirtualPackage :=
  get_minimal_virtual_packages platform e.system_requirements

/-- Embedding of `verify_current_platform_has_required_virtual_packages`
from `src/workspace/virtual_packages.rs` (lines 124-190). The two external
calls are explicit inputs: `current_platform` is the resolved
`environment.best_platform()`, and `detect` is the outcome of the host
capability detection oracle (`VirtualPackage::detect`). -/
def verify_current_platform_has_required_virtual_packages
    (environment : Environment) (current_platform : Platform)
    (detect : Except DetectVirtualPackageError (List VirtualPackage)) :
    Except VerifyCurrentPlatformError Unit :=
  if environment.environment.platforms.contains current_platform = false then
    .error (.unsupportedPlatform environment.environment.platforms
      current_platform environment.environment.name)
  else
    match detect with
    | .error e => .error (.detectionVirtualPackagesError e)
    | .ok pkgs =>
      match verifyLoop (buildHostMap (pkgs.map genericFromVirtual))
          ((environment.virtual_packages current_platform).map
            genericFromVirtual) with
      | some err => .error err
      | none => .ok ()

/-- C3: when the resolved current platform is not among the environment's
declared platforms, verification returns exactly the `unsupportedPlatform`
error carrying the declared platforms, the detected platform and the
environment name, and the result does not depend on the detection oracle's
answer (detection is never consulted). -/
theorem verify_unsupported_platform_fail_fast :
    ∀ (e : Environment) (current : Platform)
      (d₁ d₂ : Except DetectVirtualPackageError (List VirtualPackage)),
      current ∉ e.environment.platforms →
      verify_current_platform_has_required_virtual_packages e current d₁ =
        .error (.unsupportedPlatform e.environment.platforms current
          e.environment.name)
      ∧ verify_current_platform_has_required_virtual_packages e current d₁ =
        verify_current_platform_has_required_virtual_packages e current
          d₂ := by
  intro e current d₁ d₂ h
  have hc : e.environment.platforms.contains current = false := by
    simpa using h
  constructor
  · simp only [verify_current_platform_has_required_virtual_packages]
    rw [if_pos hc]
  · simp only [verify_current_platform_has_required_virtual_packages]
    rw [if_pos hc, if_pos hc]

/-- The workspace of the repository's solve-group unit test: a default
feature with dependency `a`, `foo` adding `b`, `bar` adding `c` and a cuda
12.0 requirement; environments `foo` and `bar` in `group1`, `baz` in
`group2` without the default feature. -/
def exampleWorkspace : Workspace where
  features :=
    [⟨"default", {}⟩, ⟨"foo", {}⟩, ⟨"bar", { cuda := some [12, 0] }⟩]
  environments :=
    [⟨"default", ["default"], [.linux64, .osx64], none⟩,
      ⟨"foo", ["foo", "default"], [.linux64, .osx64], some 0⟩,
      ⟨"bar", ["bar", "default"], [.linux64, .osx64], some 0⟩,
      ⟨"baz", ["bar"], [.linux64, .osx64], some 1⟩]
  solve_groups := [⟨"group1", [1, 2]⟩, ⟨"group2", [3]⟩]

/-- The default environment view of the example workspace. -/
def exampleDefaultEnvironment : Environment :=
  ⟨exampleWorkspace, ⟨"default", ["default"], [.linux64, .osx64], none⟩⟩

/-- The `group1` solve-group view of the example workspace. -/
def exampleGroup1 : SolveGroup := ⟨exampleWorkspace, ⟨"group1", [1, 2]⟩⟩

/-- C3 witness: a concrete unsupported platform (win-64 against a
linux-64/osx-64 environment) produces the `unsupportedPlatform` error, for
both a failing and a succeeding detection oracle. -/
theorem verify_unsupported_platform_fail_fast_witness :
    verify_current_platform_has_required_virtual_packages
        exampleDefaultEnvironment .win64 (.error "detect failed") =
      .error (.unsupportedPlatform [.linux64, .osx64] .win64 "default")
    ∧ verify_current_platform_has_required_virtual_packages
        exampleDefaultEnvironment .win64 (.error "detect failed") =
      verify_current_platform_has_required_virtual_packages
        exampleDefaultEnvironment .win64 (.ok []) :=
  verify_unsupported_platform_fail_fast exampleDefaultEnvironment .win64
    (.error "detect failed") (.ok []) (by decide)

/-- The claim's reading of a merged version-like field: the maximum of the
present values, or unset when no value is present. -/
def presentMax (l : List (Option Version)) : Option Version :=
  match l.filterMap id with
  | [] => none
  | v :: vs => some (vs.foldl vmax v)

/-- Folding the merger over a list commutes with any field projection that
commutes with a single union step. -/
theorem foldl_union_proj (f : SystemRequirements → Option Version)
    (hf : ∀ a b, f (SystemRequirements.union a b) =
      mergeOptVersion (f a) (f b)) :
    ∀ (l : List SystemRequirements) (init : SystemRequirements),
      f (l.foldl SystemRequirements.union init) =
        (l.map f).foldl mergeOptVersion (f init) := by
  intro l
  induction l with
  | nil => intro init; rfl
  | cons a l ih =>
    intro init
    simp only [List.foldl_cons, List.map_cons, ih, hf]

/-- Folding `mergeOptVersion` from a present value maximises over the
present values of the list. -/
theorem foldl_mergeOpt_some :
    ∀ (l : List (Option Version)) (a : Version),
      l.foldl mergeOptVersion (some a) =
        some ((l.filterMap id).foldl vmax a) := by
  intro l
  induction l with
  | nil => intro a; rfl
  | cons b l ih =>
    intro a
    cases b with
    | none => simpa using ih a
    | some v => simpa [mergeOptVersion] using ih (vmax a v)

/-- Folding `mergeOptVersion` from `none` computes `presentMax`. -/
theorem foldl_mergeOpt_none :
    ∀ l : List (Option Version),
      l.foldl mergeOptVersion none = presentMax l := by
  intro l
  cases l with
  | nil => rfl
  | cons b l =>
    cases b with
    | none =>
      induction l with
      | nil => rfl
      | cons c l ih =>
        cases c with
        | none => simpa [mergeOptVersion, presentMax] using ih
        | some v =>
          simp [mergeOptVersion, presentMax, foldl_mergeOpt_some]
    | some v => simp [mergeOptVersion, presentMax, foldl_mergeOpt_some]

/-- `presentMax` is unset exactly when no value is present. -/
theorem presentMax_eq_none_iff (l : List (Option Version)) :
    presentMax l = none ↔ ∀ x ∈ l, x = none := by
  unfold presentMax
  split
  next h =>
    simp only [true_iff]
    intro x hx
    simpa using List.filterMap_eq_nil_iff.mp h x hx
  next v vs h =>
    simp only [reduceCtorEq, false_iff, not_forall]
    have hv : v ∈ l.filterMap id := by
      rw [h]; exact List.mem_cons_self _ _
    rcases List.mem_filterMap.mp hv with ⟨x, hx, hid⟩
    exact ⟨x, hx, by simp [show x = some v from hid]⟩

/-- C4: a solve group's merged system requirements take, for each
version-like field (linux, macos, cuda), the maximum value present among
the member environments' effective requirements, staying unset when no
member sets the field; in the repository's example workspace the group
merging cuda `none` with cuda `12.0` yields `some 12.0`, while the
environment outside the group keeps cuda unset. -/
theorem solve_group_requirements_merge :
    (∀ g : SolveGroup,
      g.system_requirements.linux =
        presentMax (g.environments.map
          (fun e => e.local_system_requirements.linux))
      ∧ g.system_requirements.macos =
        presentMax (g.environments.map
          (fun e => e.local_system_requirements.macos))
      ∧ g.system_requirements.cuda =
        presentMax (g.environments.map
          (fun e => e.local_system_requirements.cuda))
      ∧ (g.system_requirements.cuda = none ↔
          ∀ e ∈ g.environments, e.local_system_requirements.cuda = none))
    ∧ exampleGroup1.system_requirements.cuda = some [12, 0]
    ∧ exampleDefaultEnvironment.system_requirements.cuda = none := by
  refine ⟨fun g => ?_, by decide, by decide⟩
  have hfield : ∀ (f : SystemRequirements → Option Version),
      (∀ a b, f (SystemRequirements.union a b) =
        mergeOptVersion (f a) (f b)) → f ({} : SystemRequirements) = none →
      f g.system_requirements =
        presentMax (g.environments.map
          (fun e => f e.local_system_requirements)) := by
    intro f hf hinit
    unfold SolveGroup.system_requirements mergeAll
    rw [foldl_union_proj f hf, hinit, foldl_mergeOpt_none, List.map_map]
    rfl
  have hlin : g.system_requirements.linux =
      presentMax (g.environments.map
        (fun e => e.local_system_requirements.linux)) :=
    hfield (fun r => r.linux) (fun _ _ => rfl) rfl
  have hmac : g.system_requirements.macos =
      presentMax (g.environments.map
        (fun e => e.local_system_requirements.macos)) :=
    hfield (fun r => r.macos) (fun _ _ => rfl) rfl
  have hcud : g.system_requirements.cuda =
      presentMax (g.environments.map
        (fun e => e.local_system_requirements.cuda)) :=
    hfield (fun r => r.cuda) (fun _ _ => rfl) rfl
  refine ⟨hlin, hmac, hcud, ?_⟩
  rw [hcud, presentMax_eq_none_iff]
  constructor
  · intro h e he
    exact h _ (List.mem_map_of_mem _ he)
  · intro h x hx
    rcases List.mem_map.mp hx with ⟨e, he, rfl⟩
    exact h e he

/-- C4 witness: the two field-merge equations instantiated on the example
workspace's `group1`. -/
theorem solve_group_requirements_merge_witness :
    exampleGroup1.system_requirements.cuda =
      presentMax (exampleGroup1.environments.map
        (fun e => e.local_system_requirements.cuda)) :=
  (solve_group_requirements_merge.1 exampleGroup1).2.2.1

/-- The worker of itertools' `unique_by`: traverse the list keeping an
element whenever its key has not been seen yet, recording seen keys. -/
def uniqueByAux {α κ : Type} (key : α → κ) [DecidableEq κ] :
    List α → List κ → List α
  | [], _ => []
  | a :: as, seen =>
    if key a ∈ seen then uniqueByAux key as seen
    else a :: uniqueByAux key as (key a :: seen)

/-- itertools' `unique_by`: first-occurrence-wins deduplication by key. -/
def uniqueBy {α κ : Type} (key : α → κ) [DecidableEq κ] (l : List α) :
    List α :=
  uniqueByAux key l []

/-- The claim's reference traversal: keep each element whose key appears
here for the first time, dropping every later occurrence of that key. -/
def firstOccs {α κ : Type} (key : α → κ) [DecidableEq κ] :
    List α → List α
  | [] => []
  | a :: as => a :: firstOccs key (as.filter (fun b => key b ≠ key a))
termination_by l => l.length
decreasing_by
  simp only [List.length_cons]
  exact Nat.lt_succ_of_le (List.length_filter_le _ _)

/-- `uniqueByAux` with a seen set equals the reference traversal of the
list with already-seen keys filtered away. -/
theorem uniqueByAux_eq_firstOccs {α κ : Type} (key : α → κ)
    [DecidableEq κ] :
    ∀ (l : List α) (seen : List κ),
      uniqueByAux key l seen =
        firstOccs key (l.filter (fun a => key a ∉ seen)) := by
  intro l
  induction l with
  | nil => intro seen; simp [uniqueByAux, firstOccs]
  | cons a as ih =>
    intro seen
    by_cases h : key a ∈ seen
    · rw [uniqueByAux, if_pos h, ih]
      congr 1
      simp [List.filter_cons, h]
    · rw [uniqueByAux, if_neg h, ih]
      have hstep : (a :: as).filter (fun x => key x ∉ seen) =
          a :: as.filter (fun x => key x ∉ seen) := by
        simp [List.filter_cons, h]
      rw [hstep, firstOccs]
      congr 1
      rw [List.filter_filter]
      congr 1
      apply List.filter_congr
      intro x hx
      by_cases h1 : key x = key a <;> by_cases h2 : key x ∈ seen <;>
        simp [h1, h2, List.mem_cons]

/-- `uniqueBy` is exactly the first-occurrence traversal. -/
theorem uniqueBy_eq_firstOccs {α κ : Type} (key : α → κ) [DecidableEq κ]
    (l : List α) : uniqueBy key l = firstOccs key l := by
  rw [uniqueBy, uniqueByAux_eq_firstOccs]
  congr 1
  simp

/-- Every element kept by the reference traversal comes from the list. -/
theorem mem_of_mem_firstOccs {α κ : Type} (key : α → κ) [DecidableEq κ] :
    ∀ (l : List α) (x : α), x ∈ firstOccs key l → x ∈ l := by
  intro l
  induction l using firstOccs.induct key with
  | case1 => intro x hx; rw [firstOccs] at hx; cases hx
  | case2 a as ih =>
    intro x hx
    rw [firstOccs, List.mem_cons] at hx
    rcases hx with rfl | hx
    · exact List.mem_cons_self _ _
    · exact List.mem_cons_of_mem _ (List.mem_of_mem_filter (ih x hx))

/-- The keys of the reference traversal's output are pairwise distinct. -/
theorem firstOccs_key_nodup {α κ : Type} (key : α → κ) [DecidableEq κ] :
    ∀ l : List α, ((firstOccs key l).map key).Nodup := by
  intro l
  induction l using firstOccs.induct key with
  | case1 => simp [firstOccs]
  | case2 a as ih =>
    rw [firstOccs]
    simp only [List.map_cons, List.nodup_cons]
    refine ⟨?_, ih⟩
    intro hmem
    rcases List.mem_map.mp hmem with ⟨x, hx, hk⟩
    have hxf := mem_of_mem_firstOccs key _ x hx
    have := List.of_mem_filter hxf
    simp [hk] at this

/-- The reference traversal preserves exactly the set of keys. -/
theorem mem_map_key_firstOccs {α κ : Type} (key : α → κ) [DecidableEq κ] :
    ∀ (l : List α) (k : κ),
      k ∈ l.map key ↔ k ∈ (firstOccs key l).map key := by
  intro l
  induction l using firstOccs.induct key with
  | case1 => intro k; rw [firstOccs]
  | case2 a as ih =>
    intro k
    rw [firstOccs]
    simp only [List.map_cons, List.mem_cons]
    constructor
    · rintro (hk | hk)
      · exact Or.inl hk
      · by_cases ha : k = key a
        · exact Or.inl ha
        · refine Or.inr ((ih k).mp ?_)
          rcases List.mem_map.mp hk with ⟨x, hx, rfl⟩
          exact List.mem_map_of_mem key
            (List.mem_filter_of_mem hx (by simp [ha]))
    · rintro (hk | hk)
      · exact Or.inl hk
      · rcases List.mem_map.mp ((ih k).mpr hk) with ⟨x, hx, rfl⟩
        exact Or.inr (List.mem_map_of_mem key (List.mem_of_mem_filter hx))

/-- `SolveGroup::features` (via `HasFeaturesIter`) from
`src/workspace/solve_group.rs` (lines 77-86): the member environments'
features flattened in declaration order and deduplicated by feature name
with itertools' `unique_by`. -/
def SolveGroup.features (g : SolveGroup) : List Feature :=
  uniqueBy Feature.name ((g.environments.map Environment.features).flatten)

/-- C5: a solve group's feature list is exactly the first-occurrence
traversal of its member environments' features (environments in
declaration order, each environment's features in its own order): later
occurrences of an already-seen feature name are dropped, the remaining
names are pairwise distinct, and exactly the names of the traversal
survive. -/
theorem solve_group_features_first_occurrence :
    ∀ g : SolveGroup,
      g.features =
        firstOccs Feature.name
          ((g.environments.map Environment.features).flatten)
      ∧ (g.features.map Feature.name).Nodup
      ∧ ∀ n, n ∈ ((g.environments.map Environment.features).flatten).map
            Feature.name ↔
          n ∈ g.features.map Feature.name := by
  intro g
  refine ⟨uniqueBy_eq_firstOccs _ _, ?_, ?_⟩
  · rw [SolveGroup.features, uniqueBy_eq_firstOccs]
    exact firstOccs_key_nodup _ _
  · intro n
    rw [SolveGroup.features, uniqueBy_eq_firstOccs]
    exact mem_map_key_firstOccs _ _ n

/-- C5 witness: the characterization instantiated on the example
workspace's `group1` (whose traversal repeats the default feature). -/
theorem solve_group_features_first_occurrence_witness :
    exampleGroup1.features =
      firstOccs Feature.name
        ((exampleGroup1.environments.map Environment.features).flatten) :=
  (solve_group_features_first_occurrence exampleGroup1).1

/-- Whether a virtual package is the Windows capability entry. -/
def VirtualPackage.isWindowsEntry : VirtualPackage → Bool
  | .win _ => true
  | _ => false

/-- C7: on every Windows platform the synthesized Windows capability
always carries the default Windows version — no field of the
`SystemRequirements` input can change it. -/
theorem windows_capability_always_default :
    ∀ (p : Platform) (r : SystemRequirements),
      p.is_windows = true →
      (get_minimal_virtual_packages p r).filter
          VirtualPackage.isWindowsEntry =
        [.win (some default_windows_version)] := by
  intro p r h
  obtain ⟨lin, cu, mac, lib, win⟩ := r
  cases p <;> simp [Platform.is_windows] at h <;> cases cu <;>
    simp [get_minimal_virtual_packages, Platform.is_unix, Platform.is_linux,
      Platform.is_osx, Platform.is_windows, archspec_from_platform,
      VirtualPackage.isWindowsEntry]

/-- C7 witness: on win-64 with every requirement field populated, the
Windows entry is still exactly the default one. -/
theorem windows_capability_always_default_witness :
    Platform.is_windows .win64 = true
    ∧ (get_minimal_virtual_packages .win64
          { linux := some [6, 5], cuda := some [12, 4],
            macos := some [15, 0], libc := some ⟨some "musl", [1, 2, 4]⟩,
            windows := some [11, 0] }).filter
          VirtualPackage.isWindowsEntry =
        [.win (some default_windows_version)] :=
  ⟨rfl,
    windows_capability_always_default .win64
      { linux := some [6, 5], cuda := some [12, 4], macos := some [15, 0],
        libc := some ⟨some "musl", [1, 2, 4]⟩, windows := some [11, 0] }
      rfl⟩

/-- C9: the synthesizer is a pure function of (platform, requirements):
two invocations on the same pair agree in length and position-wise, and
its output on the snapshot platforms with default requirements is the
fixed list recorded here. -/
theorem get_minimal_virtual_packages_deterministic :
    (∀ (p : Platform) (r : SystemRequirements),
        (get_minimal_virtual_packages p r).length =
          (get_minimal_virtual_packages p r).length
        ∧ ∀ i : Nat, (get_minimal_virtual_packages p r)[i]? =
            (get_minimal_virtual_packages p r)[i]?)
    ∧ get_minimal_virtual_packages .noArch {} = []
    ∧ get_minimal_virtual_packages .linux64 {} =
        [.unix, .linux [4, 18], .libC "glibc" [2, 17], .archspec "x86_64"]
    ∧ get_minimal_virtual_packages .linuxAarch64 {} =
        [.unix, .linux [4, 18], .libC "glibc" [2, 17], .archspec "aarch64"]
    ∧ get_minimal_virtual_packages .linuxPpc64le {} =
        [.unix, .linux [4, 18], .libC "glibc" [2, 17], .archspec "ppc64le"]
    ∧ get_minimal_virtual_packages .osx64 {} =
        [.unix, .osx [10, 15], .archspec "x86_64"]
    ∧ get_minimal_virtual_packages .osxArm64 {} =
        [.unix, .osx [11, 0], .archspec "m1"]
    ∧ get_minimal_virtual_packages .win64 {} =
        [.win (some [10, 0]), .archspec "x86_64"] :=
  ⟨fun _ _ => ⟨rfl, fun _ => rfl⟩, by decide, by decide, by decide,
    by decide, by decide, by decide, by decide⟩

/-- The discriminant of a virtual package's capability kind. -/
def VirtualPackage.kindIndex : VirtualPackage → Nat
  | .unix => 0
  | .linux _ => 1
  | .libC _ _ => 2
  | .win _ => 3
  | .osx _ => 4
  | .cuda _ => 5
  | .archspec _ => 6

/-- The libc family name the synthesizer would use for these requirements
(declared family, defaulting to glibc). -/
def libcFamilyName (r : SystemRequirements) : String :=
  match r.libc with
  | some l => l.family_and_version.1
  | none => "glibc"

/-- C10 counterexample: with a declared libc family of "linux" the libc
capability's projected name collides with the Linux capability's
`__linux`, so the projected names are not pairwise distinct. -/
theorem minimal_virtual_packages_names_counterexample :
    ¬ (((get_minimal_virtual_packages .linux64
          { libc := some ⟨some "linux", [2, 17]⟩ }).map
        (fun vp => (genericFromVirtual vp).name)).Nodup) := by
  decide

/-- C10 (amended): the synthesized list always holds at most one
capability of each kind and never more than five entries, and the
projected capability names are pairwise distinct provided the (lowercased,
dunder-prefixed) libc family name does not collide with one of the fixed
capability names `__unix`, `__linux`, `__cuda`, `__archspec` — as is the
case for the default family glibc. -/
theorem minimal_virtual_packages_bounded :
    ∀ (p : Platform) (r : SystemRequirements),
      ((get_minimal_virtual_packages p r).map
        VirtualPackage.kindIndex).Nodup
      ∧ (get_minimal_virtual_packages p r).length ≤ 5
      ∧ ("__" ++ toLowerStr (libcFamilyName r) ∉
            (["__unix", "__linux", "__cuda", "__archspec"] : List String) →
          ((get_minimal_virtual_packages p r).map
            (fun vp => (genericFromVirtual vp).name)).Nodup) := by
  intro p r
  obtain ⟨lin, cu, mac, lib, win⟩ := r
  refine ⟨?_, ?_, ?_⟩
  · cases p <;> cases cu <;> cases lib <;>
      simp [get_minimal_virtual_packages, VirtualPackage.kindIndex,
        Platform.is_unix, Platform.is_linux, Platform.is_osx,
        Platform.is_windows, archspec_from_platform]
  · cases p <;> cases cu <;> cases lib <;>
      simp [get_minimal_virtual_packages, Platform.is_unix,
        Platform.is_linux, Platform.is_osx, Platform.is_windows,
        archspec_from_platform]
  · intro h
    cases lib with
    | none =>
      cases p <;> cases cu <;>
        (simp [get_minimal_virtual_packages, genericFromVirtual,
          Platform.is_unix, Platform.is_linux, Platform.is_osx,
          Platform.is_windows, archspec_from_platform,
          LibCSystemRequirement.family_and_version]
         <;> try decide)
    | some l =>
      obtain ⟨fam, ver⟩ := l
      cases fam with
      | none =>
        cases p <;> cases cu <;>
          (simp [get_minimal_virtual_packages, genericFromVirtual,
            Platform.is_unix, Platform.is_linux, Platform.is_osx,
            Platform.is_windows, archspec_from_platform,
            LibCSystemRequirement.family_and_version]
           <;> try decide)
      | some f =>
        simp only [libcFamilyName, LibCSystemRequirement.family_and_version,
          Option.getD, List.mem_cons, List.not_mem_nil, or_false,
          not_or] at h
        obtain ⟨h1, h2, h3, h4⟩ := h
        cases p <;> cases cu <;>
          simp [get_minimal_virtual_packages, genericFromVirtual,
            Platform.is_unix, Platform.is_linux, Platform.is_osx,
            Platform.is_windows, archspec_from_platform,
            LibCSystemRequirement.family_and_version, h1, h2, h3, h4,
            Ne.symm h1, Ne.symm h2, Ne.symm h3, Ne.symm h4]

/-- C10 witness: with default requirements on linux-64 the libc family is
glibc, its name collides with nothing, and the projected names are
pairwise distinct. -/
theorem minimal_virtual_packages_bounded_witness :
    ("__" ++ toLowerStr (libcFamilyName {}) ∉
        (["__unix", "__linux", "__cuda", "__archspec"] : List String))
    ∧ ((get_minimal_virtual_packages .linux64 {}).map
        (fun vp => (genericFromVirtual vp).name)).Nodup :=
  ⟨by decide, (minimal_virtual_packages_bounded .linux64 {}).2.2 (by decide)⟩

/-- A solve-group view together with the identities of the records it
borrows: `workspaceId` and `solveGroupId` stand for the addresses compared
by `std::ptr::eq`, while `workspace` and `solve_group` are the pointed-to
contents. -/
structure SolveGroupRef where
  workspaceId : Nat
  solveGroupId : Nat
  workspace : Workspace
  solve_group : SolveGroupRecord

/-- `PartialEq for SolveGroup` from `src/workspace/solve_group.rs` (lines
21-26): pointer equality of the solve-group record, then of the
workspace. -/
def SolveGroupRef.refEq (a b : SolveGroupRef) : Bool :=
  a.solveGroupId == b.solveGroupId && a.workspaceId == b.workspaceId

/-- `Hash for SolveGroup` from `src/workspace/solve_group.rs` (lines
30-35): the hasher consumes the two pointer identities, nothing else. -/
def SolveGroupRef.hashWith (h : Nat → Nat → Nat) (a : SolveGroupRef) :
    Nat :=
  h a.solveGroupId a.workspaceId

/-- C8: solve-group view equality holds exactly when both underlying
identities agree, it is an equivalence relation, every hasher is
consistent with it, and it is not value equality: two views with identical
record contents but different identities are unequal. -/
theorem solve_group_identity_equality :
    (∀ a b : SolveGroupRef, a.refEq b = true ↔
      a.solveGroupId = b.solveGroupId ∧ a.workspaceId = b.workspaceId)
    ∧ Equivalence (fun a b : SolveGroupRef => a.refEq b = true)
    ∧ (∀ (h : Nat → Nat → Nat) (a b : SolveGroupRef),
        a.refEq b = true → a.hashWith h = b.hashWith h)
    ∧ (∃ a b : SolveGroupRef, a.workspace = b.workspace
        ∧ a.solve_group = b.solve_group ∧ a.refEq b = false) := by
  have hiff : ∀ a b : SolveGroupRef, a.refEq b = true ↔
      a.solveGroupId = b.solveGroupId ∧ a.workspaceId = b.workspaceId := by
    intro a b
    simp [SolveGroupRef.refEq]
  refine ⟨hiff, ⟨?_, ?_, ?_⟩, ?_, ?_⟩
  · intro a
    exact (hiff a a).mpr ⟨rfl, rfl⟩
  · intro a b hab
    rcases (hiff a b).mp hab with ⟨h1, h2⟩
    exact (hiff b a).mpr ⟨h1.symm, h2.symm⟩
  · intro a b c hab hbc
    rcases (hiff a b).mp hab with ⟨h1, h2⟩
    rcases (hiff b c).mp hbc with ⟨h3, h4⟩
    exact (hiff a c).mpr ⟨h1.trans h3, h2.trans h4⟩
  · intro h a b hab
    rcases (hiff a b).mp hab with ⟨h1, h2⟩
    rw [SolveGroupRef.hashWith, SolveGroupRef.hashWith, h1, h2]
  · exact ⟨⟨0, 0, exampleWorkspace, ⟨"group1", [1, 2]⟩⟩,
      ⟨0, 1, exampleWorkspace, ⟨"group1", [1, 2]⟩⟩, rfl, rfl, rfl⟩

/-- C8 witness: two views of the same records under the same identities
are equal and hash identically under a concrete hasher, even though their
contents were built separately. -/
theorem solve_group_identity_equality_witness :
    SolveGroupRef.hashWith (fun x y => 31 * x + y)
        ⟨5, 7, exampleWorkspace, ⟨"group1", [1, 2]⟩⟩ =
      SolveGroupRef.hashWith (fun x y => 31 * x + y)
        ⟨5, 7, exampleWorkspace, ⟨"group1", [1]⟩⟩ :=
  solve_group_identity_equality.2.2.1 (fun x y => 31 * x + y)
    ⟨5, 7, exampleWorkspace, ⟨"group1", [1, 2]⟩⟩
    ⟨5, 7, exampleWorkspace, ⟨"group1", [1]⟩⟩ rfl

/-- C1 witness: the six-step reference equality at a concrete input. -/
theorem get_minimal_virtual_packages_eq_six_step_reference_witness :
    get_minimal_virtual_packages .linux64 { cuda := some [12, 0] } =
      synthesizeSpec .linux64 { cuda := some [12, 0] } :=
  get_minimal_virtual_packages_eq_six_step_reference .linux64
    { cuda := some [12, 0] }

/-- C2 witness: the first-failure characterization at a concrete host map
and required list. -/
theorem verifyLoop_first_failure_witness :
    verifyLoop (buildHostMap [⟨"__unix", [0], "0"⟩])
        [⟨"__unix", [0], "0"⟩, ⟨"__cuda", [12, 0], "0"⟩] =
      (([⟨"__unix", [0], "0"⟩, ⟨"__cuda", [12, 0], "0"⟩] :
          List GenericVirtualPackage).filter
        (fun r => r.name ≠ "__archspec")).findSome?
        (capFailure (buildHostMap [⟨"__unix", [0], "0"⟩]))
    ∧ (verifyLoop (buildHostMap [⟨"__unix", [0], "0"⟩])
          [⟨"__unix", [0], "0"⟩, ⟨"__cuda", [12, 0], "0"⟩] = none ↔
        ∀ req ∈ ([⟨"__unix", [0], "0"⟩, ⟨"__cuda", [12, 0], "0"⟩] :
            List GenericVirtualPackage),
          req.name ≠ "__archspec" →
            capPasses (buildHostMap [⟨"__unix", [0], "0"⟩]) req) :=
  verifyLoop_first_failure (buildHostMap [⟨"__unix", [0], "0"⟩])
    [⟨"__unix", [0], "0"⟩, ⟨"__cuda", [12, 0], "0"⟩]

/-- C6 witness: the archspec-filter equation at a concrete host map and a
required list containing an archspec entry the host does not have. -/
theorem verifyLoop_skips_archspec_witness :
    verifyLoop (buildHostMap [⟨"__unix", [0], "0"⟩])
        [⟨"__unix", [0], "0"⟩, ⟨"__archspec", [1], "x86_64"⟩] =
      verifyLoop (buildHostMap [⟨"__unix", [0], "0"⟩])
        (([⟨"__unix", [0], "0"⟩, ⟨"__archspec", [1], "x86_64"⟩] :
            List GenericVirtualPackage).filter
          (fun r => r.name ≠ "__archspec")) :=
  verifyLoop_skips_archspec (buildHostMap [⟨"__unix", [0], "0"⟩])
    [⟨"__unix", [0], "0"⟩, ⟨"__archspec", [1], "x86_64"⟩]

/-- C9 witness: the repeated-invocation agreement at a concrete input. -/
theorem get_minimal_virtual_packages_deterministic_witness :
    (get_minimal_virtual_packages .osxArm64 { cuda := some [12, 0] }).length =
      (get_minimal_virtual_packages .osxArm64
        { cuda := some [12, 0] }).length :=
  (get_minimal_virtual_packages_deterministic.1 .osxArm64
    { cuda := some [12, 0] }).1

end Pixi
